import Mathlib

/-!
Shallow embedding of the RAG chatbot core logic:
chunking (src/utils/chunking_utils.py), groundedness validation
(src/utils/validation.py, src/services/validation_service.py) and
retrieval ranking (src/services/retrieval_service.py).

Python strings are modelled as Lean `String` (a list of characters);
the relevant Python primitives (lower, strip, split, substring test,
whitespace normalisation, sentence splitting) are embedded below.
Floats appearing in the validators (0.2, 0.3, 0.5, 0.9, 1.0 and the
overlap ratios) are modelled as rationals; all ratios involved are
exact small fractions, so no rounding behaviour is load-bearing.
-/

namespace RAG

set_option maxRecDepth 100000

/-- Python ASCII whitespace, the character class matched by the regex
escape for whitespace and stripped by Python strip and split. -/
def pyIsSpace (c : Char) : Bool :=
  c == ' ' || c == '\t' || c == '\n' || c == '\r' || c == '\x0B' || c == '\x0C'

/-- Sentence-terminator characters from the regex classes in
validation.py line 167 and chunking_utils.py line 60. -/
def isSentEnd (c : Char) : Bool :=
  c == '.' || c == '!' || c == '?'

/-- Character-list version of a starts-with test, used to implement the
Python substring operator. -/
def startsWithL : List Char → List Char → Bool
  | [], _ => true
  | _ :: _, [] => false
  | a :: as, b :: bs => a == b && startsWithL as bs

/-- Character-list contiguous-substring search implementing the Python
operator that tests substring containment. -/
def containsSubL (needle : List Char) : List Char → Bool
  | [] => startsWithL needle []
  | c :: rest => startsWithL needle (c :: rest) || containsSubL needle rest

/-- Python substring containment test on strings. -/
def pyIn (needle hay : String) : Bool :=
  containsSubL needle.data hay.data

/-- Python str.lower, restricted to ASCII case mapping (all phrase
comparisons in the source are over ASCII text). -/
def pyLower (s : String) : String :=
  ⟨s.data.map Char.toLower⟩

/-- Python str.strip on a character list: drop whitespace from both
ends. -/
def pyStripL (s : List Char) : List Char :=
  ((s.dropWhile pyIsSpace).reverse.dropWhile pyIsSpace).reverse

/-- Python str.strip. -/
def pyStrip (s : String) : String :=
  ⟨pyStripL s.data⟩

/-- Python str.split with no separator: split on whitespace runs,
dropping empty fields. -/
def pySplitWs (s : String) : List String :=
  ((s.data.splitOnP pyIsSpace).filter (fun l => l ≠ [])).map (fun l => ⟨l⟩)

/-- Python space-join of a list of strings. -/
def joinSpace (parts : List String) : String :=
  String.intercalate " " parts

/-- The rational mkRat a b is the exact division of a by b; the
embedding writes the float ratios and thresholds of the validators
with mkRat (which evaluates by kernel reduction, unlike the field
division of the rationals). -/
theorem mkRat_eq_natCast_div (a b : Nat) : mkRat a b = (a : ℚ) / (b : ℚ) := by
  rw [Rat.mkRat_eq_div]
  push_cast
  rfl

/-- Whitespace-run collapsing from clean_text (chunking_utils.py lines
9-15): every maximal whitespace run is replaced by a single space.
The Boolean argument records whether the previous character was
whitespace (a space has already been emitted for the current run). -/
def collapseWs : Bool → List Char → List Char
  | _, [] => []
  | inWs, c :: rest =>
    if pyIsSpace c then
      if inWs then collapseWs true rest
      else ' ' :: collapseWs true rest
    else c :: collapseWs false rest

/-- clean_text from chunking_utils.py: collapse whitespace runs to a
single space, then strip. -/
def cleanText (s : String) : String :=
  pyStrip ⟨collapseWs false s.data⟩

/-- Splitting on maximal nonempty runs of sentence terminators, the
behaviour of the regex split on a one-or-more terminator class used at
validation.py line 167.  The Boolean argument records whether the
previous character belonged to a terminator run (whose field boundary
has already been emitted); acc is the current field, reversed.  Empty
fields (between consecutive runs or at the ends) are kept, as the
Python regex split keeps them. -/
def splitPunctRunsAux : Bool → List Char → List Char → List (List Char)
  | _, acc, [] => [acc.reverse]
  | inRun, acc, c :: rest =>
    if isSentEnd c then
      if inRun then splitPunctRunsAux true acc rest
      else acc.reverse :: splitPunctRunsAux true [] rest
    else splitPunctRunsAux false (c :: acc) rest

/-- String-level wrapper of the sentence-terminator-run split. -/
def splitPunctRuns (s : String) : List String :=
  (splitPunctRunsAux false [] s.data).map (fun l => ⟨l⟩)

/-!
Groundedness validator, selected-text mode
(src/utils/validation.py, validate_selected_text_response, lines 143-233).
-/

/-- Verdict record returned by validate_selected_text_response.  Only
the three fields inspected by the claims are modelled; the optional
per-sentence breakdown keys are derivable from the helper functions
below. -/
structure SelVerdict where
  is_valid : Bool
  errors : List String
  confidence : ℚ
deriving DecidableEq, Repr

/-- Explicit-refusal phrases of the selected-text mode
(validation.py lines 201-207).  The apostrophe in the first phrase is
written as an escape. -/
def externalIndicators : List String :=
  ["i don\x27t know",
   "not in the provided text",
   "not found in the selected text",
   "not mentioned in the text",
   "not specified in the text"]

/-- Word set of a (already lowercased) text: whitespace-split words of
length greater than 3, as a deduplicated list standing for the Python
set (validation.py lines 176-177). -/
def sentenceWordSet (s : String) : List String :=
  ((pySplitWs s).filter (fun w => 3 < w.length)).dedup

/-- Sentence list of the answer: regex split on sentence-terminator
runs, each field stripped, empty fields dropped
(validation.py line 167). -/
def responseSentences (response : String) : List String :=
  ((splitPunctRuns response).map pyStrip).filter (fun s => s ≠ "")

/-- Per-sentence classification of the loop at validation.py lines
172-188: none when the sentence is skipped (empty after lowering and
stripping, or no words longer than 3 characters), some true when the
overlap ratio with the selected-text word set is below 0.3 (invalid),
some false otherwise (valid). -/
def sentenceFlag (selected_words : List String) (sentence : String) : Option Bool :=
  let sentence_lower := pyStrip (pyLower sentence)
  if sentence_lower = "" then none
  else
    let sentence_words := sentenceWordSet sentence_lower
    if sentence_words = [] then none
    else
      let common_words := sentence_words.filter (fun w => selected_words.contains w)
      let overlap_ratio : ℚ := mkRat common_words.length sentence_words.length
      some (decide (overlap_ratio < mkRat 3 10))

/-- Sentences collected into invalid_sentences by the loop. -/
def invalidSentences (response selected_text : String) : List String :=
  (responseSentences response).filter
    (fun s => sentenceFlag (sentenceWordSet (pyLower selected_text)) s = some true)

/-- Sentences collected into valid_sentences by the loop. -/
def validSentences (response selected_text : String) : List String :=
  (responseSentences response).filter
    (fun s => sentenceFlag (sentenceWordSet (pyLower selected_text)) s = some false)

/-- validate_selected_text_response from src/utils/validation.py lines
143-233: empty-answer and empty-selected-text hard failures, sentence
overlap analysis, the more-than-half-invalid error, the explicit
refusal short-circuit, and the capped valid-ratio confidence. -/
def validate_selected_text_response (response selected_text : String) : SelVerdict :=
  if response = "" then
    { is_valid := false, errors := ["Response cannot be empty"], confidence := 0 }
  else if selected_text = "" then
    { is_valid := false, errors := ["Selected text cannot be empty for validation"],
      confidence := 0 }
  else
    let response_lower := pyLower response
    let sentences := responseSentences response
    let invalid_sentences := invalidSentences response selected_text
    let valid_sentences := validSentences response selected_text
    let total_sentences := sentences.length
    let errors : List String :=
      if 0 < total_sentences ∧
          mkRat 1 2 < mkRat invalid_sentences.length total_sentences then
        ["Response contains information not found in selected text. " ++
          toString invalid_sentences.length ++ "/" ++ toString total_sentences ++
          " sentences appear to be outside the selected text context."]
      else []
    if externalIndicators.any (fun ind => pyIn ind response_lower) then
      { is_valid := true, errors := [], confidence := 1 }
    else
      let confidence : ℚ :=
        if 0 < total_sentences then
          min 1 (mkRat valid_sentences.length total_sentences)
        else 0
      { is_valid := errors.isEmpty, errors := errors, confidence := confidence }

/-!
Groundedness validator, retrieved-context mode
(src/services/validation_service.py, validate_book_based_response,
lines 17-69).  A context chunk is modelled by its content string, the
only field the function reads.
-/

/-- Verdict record of the service validator. -/
structure BookVerdict where
  is_valid : Bool
  issues : List String
  confidence : ℚ
deriving DecidableEq, Repr

/-- Known-absence phrases (validation_service.py lines 5-14). -/
def known_absence_phrases : List String :=
  ["not available in the book",
   "not found in the book",
   "not mentioned in the book",
   "no information in the book",
   "book does not contain",
   "not provided in the book",
   "not specified in the book"]

/-- Literal stems of the generic-knowledge regex patterns
(validation_service.py lines 38-48).  Each source pattern is the stem
followed by a dot-star, so a regex search of it succeeds exactly when
the stem occurs as a substring. -/
def generic_indicators : List String :=
  ["generally", "in general", "typically", "usually", "most", "many",
   "external sources", "other sources", "from external knowledge"]

/-- validate_book_based_response from
src/services/validation_service.py lines 17-69: absence-phrase
short-circuit, generic-knowledge indicator scan, and the
sparse-context-but-verbose-answer heuristic (which runs only when the
chunk list is nonempty). -/
def validate_book_based_response (response : String) (context_chunks : List String) :
    BookVerdict :=
  let response_lower := pyLower response
  if known_absence_phrases.any (fun p => pyIn p response_lower) then
    { is_valid := true, issues := [], confidence := mkRat 9 10 }
  else
    let hits := generic_indicators.filter (fun p => pyIn p response_lower)
    let issues := hits.map
      (fun p => "Response contains generic knowledge indicator: " ++ p ++ ".*")
    let is_valid := issues.isEmpty
    let confidence : ℚ := if issues.isEmpty then 1 else mkRat 3 10
    if context_chunks.isEmpty then
      { is_valid := is_valid, issues := issues, confidence := confidence }
    else
      let context_text := joinSpace context_chunks
      if (pyStrip context_text).length < 50 ∧ 100 < (pyStrip response).length then
        { is_valid := false,
          issues := issues ++ ["Detailed response provided with minimal context"],
          confidence := mkRat 1 5 }
      else
        { is_valid := is_valid, issues := issues, confidence := confidence }

/-!
Chunking (src/utils/chunking_utils.py).  The subword tokenizer is an
external library; chunking is embedded generically over an abstract
encode/decode pair, exactly as the source composes them.
-/

/-- Window loop of chunk_text_by_tokens (chunking_utils.py lines
26-49), at the token level: from the current start index take
max_tokens tokens, extend by overlap_tokens when tokens remain beyond
the window, and advance the start by max_tokens.  The loop is driven
by fuel, which the wrapper instantiates large enough for every
positive max_tokens. -/
def chunkTokenWindowsAux (tokens : List α) (max_tokens overlap_tokens : Nat) :
    Nat → Nat → List (List α)
  | 0, _ => []
  | fuel + 1, start_idx =>
    if start_idx < tokens.length then
      let end_idx := start_idx + max_tokens
      let end_idx := if end_idx < tokens.length then end_idx + overlap_tokens else end_idx
      (tokens.drop start_idx).take (end_idx - start_idx) ::
        chunkTokenWindowsAux tokens max_tokens overlap_tokens fuel (start_idx + max_tokens)
    else []

/-- All token windows emitted by the loop of chunk_text_by_tokens,
starting at index 0. -/
def chunkTokenWindows (tokens : List α) (max_tokens overlap_tokens : Nat) :
    List (List α) :=
  chunkTokenWindowsAux tokens max_tokens overlap_tokens (tokens.length + 1) 0

/-- chunk_text_by_tokens (chunking_utils.py lines 17-51), generic over
the tokenizer encode/decode pair: empty-after-strip input yields no
chunks; otherwise each token window is decoded, whitespace-normalised,
and kept when nonempty. -/
def chunk_text_by_tokens (encode : String → List Nat) (decode : List Nat → String)
    (text : String) (max_tokens overlap_tokens : Nat) : List String :=
  if pyStrip text = "" then []
  else
    ((chunkTokenWindows (encode text) max_tokens overlap_tokens).map
      (fun w => cleanText (decode w))).filter (fun c => c ≠ "")

/-- Sentence split of chunk_text_by_sentences (chunking_utils.py line
60): the regex split on a nonempty sentence-terminator run followed by
nonempty whitespace.  A terminator run not followed by whitespace is
ordinary text.  The state is: whether the previous character belonged
to the whitespace tail of a separator (inSep), the pending candidate
terminator run (reversed), and the current field (reversed).  Empty
fields are kept, as the Python regex split keeps them. -/
def splitSentencesAux : Bool → List Char → List Char → List Char → List (List Char)
  | _, pending, acc, [] => [(pending ++ acc).reverse]
  | inSep, pending, acc, c :: rest =>
    if inSep && pyIsSpace c then splitSentencesAux true pending acc rest
    else if isSentEnd c then splitSentencesAux false (c :: pending) acc rest
    else if pyIsSpace c then
      if pending.isEmpty then splitSentencesAux false [] (c :: acc) rest
      else acc.reverse :: splitSentencesAux true [] [] rest
    else splitSentencesAux false [] (c :: (pending ++ acc)) rest

/-- String-level sentence split used by chunk_text_by_sentences. -/
def splitSentences (text : String) : List String :=
  (splitSentencesAux false [] [] text.data).map (fun l => ⟨l⟩)

/-- Accumulation loop of chunk_text_by_sentences (chunking_utils.py
lines 64-86), carrying the current chunk: a sentence is appended to
the current chunk when the token count of the combined text stays
within max_tokens; otherwise the current chunk is flushed and an
over-length sentence is split by the token windowing with zero
overlap.  In that over-length branch the source leaves current_chunk
unchanged after flushing it, and the embedding reproduces this. -/
def sentencesLoop (encode : String → List Nat) (decode : List Nat → String)
    (max_tokens : Nat) : List String → String → List String
  | [], current_chunk =>
    if pyStrip current_chunk ≠ "" then [cleanText current_chunk] else []
  | sentence :: rest, current_chunk =>
    let test_chunk := if current_chunk ≠ "" then current_chunk ++ " " ++ sentence
      else sentence
    if (encode test_chunk).length ≤ max_tokens then
      sentencesLoop encode decode max_tokens rest test_chunk
    else
      let flushed := if pyStrip current_chunk ≠ "" then [cleanText current_chunk] else []
      if max_tokens < (encode sentence).length then
        flushed ++ chunk_text_by_tokens encode decode sentence max_tokens 0 ++
          sentencesLoop encode decode max_tokens rest current_chunk
      else
        flushed ++ sentencesLoop encode decode max_tokens rest sentence

/-- chunk_text_by_sentences (chunking_utils.py lines 53-87), generic
over the tokenizer encode/decode pair. -/
def chunk_text_by_sentences (encode : String → List Nat) (decode : List Nat → String)
    (text : String) (max_tokens : Nat) : List String :=
  if pyStrip text = "" then []
  else sentencesLoop encode decode max_tokens (splitSentences text) ""

/-!
Chunk identity (src/utils/chunking_utils.py, create_chunk_dict, lines
89-109).  The id is the version-5 uuid of a name built from the source
path, the content length, and the Python builtin hash of the content.
The uuid computation and the builtin hash are external runtime
functions, so both are parameters of the embedding; the name
construction is the code of the repository.
-/

/-- Name string hashed into the chunk id by create_chunk_dict
(chunking_utils.py line 98): source path, content length and builtin
content hash joined by underscores. -/
def create_chunk_name (pyhash : String → Int) (content source_path : String) : String :=
  source_path ++ "_" ++ toString content.length ++ "_" ++ toString (pyhash content)

/-- chunk_id of create_chunk_dict: version-5 uuid (an external pure
function, passed as a parameter) of the name string. -/
def create_chunk_id (uuid5 : String → String) (pyhash : String → Int)
    (content source_path : String) : String :=
  uuid5 (create_chunk_name pyhash content source_path)

/-- chunk_id sequence produced by chunk_document (chunking_utils.py
lines 111-140) for a given list of chunk contents. -/
def chunk_document_ids (uuid5 : String → String) (pyhash : String → Int)
    (chunks : List String) (source_path : String) : List String :=
  chunks.map (fun c => create_chunk_id uuid5 pyhash c source_path)

/-!
Retrieval ranking (src/services/retrieval_service.py, retrieve_and_rank,
lines 27-41).  The vector-store fetch is external; the ranking logic is
embedded as a function of the fetched result list.  A result carries
the fields the ranking reads and writes, plus an identifier standing
for the rest of the payload.
-/

/-- Retrieval result as seen by the ranker. -/
structure RetrievedChunk where
  chunk_id : Nat
  similarity_score : ℚ
  composite_score : ℚ
deriving DecidableEq, Repr

/-- Ranking portion of retrieve_and_rank: set composite_score to
similarity_score on every element, then stable-sort by composite_score
descending (the Python list sort is stable; the embedding uses the
stable mergeSort). -/
def retrieve_and_rank (chunks : List RetrievedChunk) : List RetrievedChunk :=
  let scored := chunks.map (fun c => { c with composite_score := c.similarity_score })
  scored.mergeSort (fun a b => decide (b.composite_score ≤ a.composite_score))

/-- Concrete deterministic tokenizer used to instantiate the generic
chunking theorems: every character is one token. -/
def charEncode (s : String) : List Nat :=
  s.data.map Char.toNat

/-- Decoder of the character tokenizer. -/
def charDecode (l : List Nat) : String :=
  ⟨l.map Char.ofNat⟩

/-!
Claim theorems.
-/

/-- C4: any answer containing one of the fixed known-absence phrases as
a case-insensitive substring makes validate_book_based_response return
immediately with is_valid true, no issues, and confidence 0.9, for
every supporting chunk list. -/
theorem validate_book_absence_short_circuit (response : String)
    (context_chunks : List String)
    (h : known_absence_phrases.any (fun p => pyIn p (pyLower response)) = true) :
    validate_book_based_response response context_chunks =
      { is_valid := true, issues := [], confidence := mkRat 9 10 } := by
  simp only [validate_book_based_response, h, if_true]

/-- Witness for C4: the answer of the spec example triggers the
short-circuit regardless of the supporting text. -/
theorem validate_book_absence_short_circuit_witness :
    known_absence_phrases.any
        (fun p => pyIn p (pyLower "This information is not available in the book.")) = true ∧
    validate_book_based_response "This information is not available in the book."
        ["totally unrelated supporting text"] =
      { is_valid := true, issues := [], confidence := mkRat 9 10 } :=
  ⟨by decide,
   validate_book_absence_short_circuit "This information is not available in the book."
     ["totally unrelated supporting text"] (by decide)⟩

/-- C5 counterexample: with an empty supporting chunk list the combined
supporting text has length 0 (below 50) and the 150-character answer
exceeds 100 characters, yet the verdict is is_valid true with
confidence 1, because the sparse-context heuristic only runs when the
chunk list is nonempty. -/
theorem validate_book_sparse_context_counterexample :
    known_absence_phrases.any
        (fun p => pyIn p (pyLower (String.mk (List.replicate 150 'a')))) = false ∧
    (pyStrip (joinSpace [])).length < 50 ∧
    100 < (pyStrip (String.mk (List.replicate 150 'a'))).length ∧
    (validate_book_based_response (String.mk (List.replicate 150 'a')) []).is_valid = true ∧
    (validate_book_based_response (String.mk (List.replicate 150 'a')) []).confidence = 1 := by
  decide

/-- C5 as amended: for a NONEMPTY supporting chunk list whose combined
(space-joined, stripped) text is shorter than 50 characters, an answer
without absence phrases whose stripped length exceeds 100 yields
is_valid false and confidence 0.2. -/
theorem validate_book_sparse_context (response : String) (context_chunks : List String)
    (hne : context_chunks ≠ [])
    (habs : known_absence_phrases.any (fun p => pyIn p (pyLower response)) = false)
    (hctx : (pyStrip (joinSpace context_chunks)).length < 50)
    (hresp : 100 < (pyStrip response).length) :
    (validate_book_based_response response context_chunks).is_valid = false ∧
    (validate_book_based_response response context_chunks).confidence = mkRat 1 5 := by
  have h1 : ¬ (known_absence_phrases.any (fun p => pyIn p (pyLower response)) = true) := by
    rw [habs]
    exact Bool.false_ne_true
  have hemp : ¬ (context_chunks.isEmpty = true) := by
    cases context_chunks with
    | nil => exact absurd rfl hne
    | cons a t => exact fun hx => Bool.noConfusion hx
  unfold validate_book_based_response
  rw [if_neg h1]
  simp only []
  rw [if_neg hemp, if_pos (And.intro hctx hresp)]
  exact ⟨rfl, rfl⟩

/-- Witness for C5 as amended: a 10-character supporting chunk and a
150-character answer. -/
theorem validate_book_sparse_context_witness :
    (["aaaaaaaaaa"] : List String) ≠ [] ∧
    known_absence_phrases.any
        (fun p => pyIn p (pyLower (String.mk (List.replicate 150 'b')))) = false ∧
    (pyStrip (joinSpace ["aaaaaaaaaa"])).length < 50 ∧
    100 < (pyStrip (String.mk (List.replicate 150 'b'))).length ∧
    (validate_book_based_response (String.mk (List.replicate 150 'b'))
        ["aaaaaaaaaa"]).is_valid = false ∧
    (validate_book_based_response (String.mk (List.replicate 150 'b'))
        ["aaaaaaaaaa"]).confidence = mkRat 1 5 := by
  refine ⟨by decide, by decide, by decide, by decide, ?_, ?_⟩
  · exact (validate_book_sparse_context _ _ (by decide) (by decide) (by decide) (by decide)).1
  · exact (validate_book_sparse_context _ _ (by decide) (by decide) (by decide) (by decide)).2

/-- C6: an answer containing one of the selected-text explicit-refusal
phrases, with a nonempty selected text, short-circuits to is_valid
true, empty error list, confidence 1.0, regardless of the sentence
overlap analysis. -/
theorem validate_selected_refusal_short_circuit (response selected_text : String)
    (hsel : selected_text ≠ "")
    (h : externalIndicators.any (fun ind => pyIn ind (pyLower response)) = true) :
    validate_selected_text_response response selected_text =
      { is_valid := true, errors := [], confidence := 1 } := by
  have hr : response ≠ "" := by
    intro he
    rw [he] at h
    exact absurd h (by decide)
  simp only [validate_selected_text_response, if_neg hr, if_neg hsel, h, if_true]

/-- Witness for C6: a refusal answer next to an unrelated selected
text (where the overlap analysis alone would have failed it). -/
theorem validate_selected_refusal_short_circuit_witness :
    ("some unrelated selected passage" : String) ≠ "" ∧
    externalIndicators.any
        (fun ind => pyIn ind (pyLower "I don\x27t know.")) = true ∧
    validate_selected_text_response "I don\x27t know." "some unrelated selected passage" =
      { is_valid := true, errors := [], confidence := 1 } :=
  ⟨by decide, by decide,
   validate_selected_refusal_short_circuit "I don\x27t know."
     "some unrelated selected passage" (by decide) (by decide)⟩

/-- C7: a nonempty answer with an empty selected text fails
immediately with is_valid false and confidence 0.0, recording an
error, before any sentence analysis. -/
theorem validate_selected_empty_selected (response : String) (h : response ≠ "") :
    validate_selected_text_response response "" =
      { is_valid := false, errors := ["Selected text cannot be empty for validation"],
        confidence := 0 } := by
  unfold validate_selected_text_response
  rw [if_neg h, if_pos rfl]

/-- Witness for C7. -/
theorem validate_selected_empty_selected_witness :
    ("A nonempty answer." : String) ≠ "" ∧
    validate_selected_text_response "A nonempty answer." "" =
      { is_valid := false, errors := ["Selected text cannot be empty for validation"],
        confidence := 0 } :=
  ⟨by decide, validate_selected_empty_selected "A nonempty answer." (by decide)⟩

/-- C10: in both validators the verdict is valid exactly when the
recorded issue/error list is empty, on every input. -/
theorem verdict_issue_consistency (response selected_text : String)
    (context_chunks : List String) :
    ((validate_book_based_response response context_chunks).is_valid = true ↔
      (validate_book_based_response response context_chunks).issues = []) ∧
    ((validate_selected_text_response response selected_text).is_valid = true ↔
      (validate_selected_text_response response selected_text).errors = []) := by
  constructor
  · simp only [validate_book_based_response]
    split
    · simp
    · split
      · simp
      · split
        · simp
        · simp
  · simp only [validate_selected_text_response]
    split
    · simp
    · split
      · simp
      · split
        · simp
        · simp

/-- C1 counterexample: the answer consisting of the single sentence of
the refusal phrase, next to a selected text sharing none of its words,
has every sentence invalid (fraction 1 of 1, above 0.5), yet the
verdict is is_valid true with empty errors and confidence 1, because
the explicit-refusal check runs after the sentence analysis and
overrides it. -/
theorem validate_selected_sentence_analysis_counterexample :
    (0 < (responseSentences "I don\x27t know.").length ∧
      mkRat 1 2 < mkRat (invalidSentences "I don\x27t know." "alpha beta").length
        (responseSentences "I don\x27t know.").length) ∧
    (validate_selected_text_response "I don\x27t know." "alpha beta").is_valid = true ∧
    (validate_selected_text_response "I don\x27t know." "alpha beta").errors = [] ∧
    (validate_selected_text_response "I don\x27t know." "alpha beta").confidence = 1 := by
  decide

/-- C1 as amended: for a nonempty selected text and an answer that
contains none of the explicit-refusal phrases, the sentence-level
analysis of validate_selected_text_response behaves as specified: when
more than half of the sentences are invalid the verdict is is_valid
false with a recorded error, and otherwise the confidence is the valid
sentence fraction capped at 1 (the fraction being 0 when there are no
sentences). -/
theorem validate_selected_sentence_analysis (response selected_text : String)
    (hsel : selected_text ≠ "")
    (hno : externalIndicators.any (fun ind => pyIn ind (pyLower response)) = false) :
    ((0 < (responseSentences response).length ∧
        mkRat 1 2 < mkRat (invalidSentences response selected_text).length
          (responseSentences response).length) →
      (validate_selected_text_response response selected_text).is_valid = false ∧
      (validate_selected_text_response response selected_text).errors ≠ []) ∧
    ((¬ (0 < (responseSentences response).length ∧
        mkRat 1 2 < mkRat (invalidSentences response selected_text).length
          (responseSentences response).length)) →
      (validate_selected_text_response response selected_text).confidence =
        min 1 (mkRat (validSentences response selected_text).length
          (responseSentences response).length)) := by
  have hno' : ¬ (externalIndicators.any (fun ind => pyIn ind (pyLower response)) = true) := by
    rw [hno]
    exact Bool.false_ne_true
  by_cases hr : response = ""
  · subst hr
    have hsent : responseSentences "" = [] := by decide
    constructor
    · intro hc
      rw [hsent] at hc
      exact absurd hc.1 (by decide)
    · intro _
      have hv : validSentences "" selected_text = [] := by
        unfold validSentences
        rw [hsent]
        rfl
      rw [hsent, hv]
      unfold validate_selected_text_response
      rw [if_pos rfl]
      norm_num
  · unfold validate_selected_text_response
    rw [if_neg hr, if_neg hsel]
    simp only []
    rw [if_neg hno']
    constructor
    · intro hc
      rw [if_pos hc]
      exact ⟨rfl, by simp⟩
    · intro hc
      rw [if_neg hc]
      simp only []
      by_cases ht : 0 < (responseSentences response).length
      · rw [if_pos ht]
      · rw [if_neg ht]
        have h0 : (responseSentences response).length = 0 := by omega
        rw [h0]
        norm_num

/-- Witness for C1 as amended: a two-sentence answer with one valid and
one invalid sentence against the selected text; the invalid fraction
1/2 is not above 0.5, and the confidence is the valid fraction 1/2. -/
theorem validate_selected_sentence_analysis_witness :
    ("alpha beta gamma words here delta" : String) ≠ "" ∧
    externalIndicators.any (fun ind =>
      pyIn ind (pyLower "Alpha beta gamma words here. Zzzz qqqq wwww xxxx.")) = false ∧
    (validate_selected_text_response "Alpha beta gamma words here. Zzzz qqqq wwww xxxx."
        "alpha beta gamma words here delta").confidence = mkRat 1 2 := by
  refine ⟨by decide, by decide, ?_⟩
  have h := (validate_selected_sentence_analysis
    "Alpha beta gamma words here. Zzzz qqqq wwww xxxx."
    "alpha beta gamma words here delta" (by decide) (by decide)).2 (by decide)
  rw [h]
  decide

/-- C3: the name hashed into the chunk id depends on the value the
Python builtin hash assigns to the content.  The builtin string hash
is salted per process (hash randomization, on by default), so two
ingestion runs in different processes assign different hash values to
the same content; under any two hash functions differing on the
content — here two concrete stand-ins — the derived names, and hence
the version-5 uuids, differ for identical (content, source_path)
inputs. -/
theorem create_chunk_name_depends_on_hash :
    create_chunk_name (fun _ => 0) "chapter one text" "books/intro.md" ≠
      create_chunk_name (fun _ => 1) "chapter one text" "books/intro.md" := by
  decide

/-- Closed form of the window loop, parametric in the start offset,
proved by induction on the fuel. -/
theorem chunkTokenWindowsAux_closed_form {α : Type} (tokens : List α) (m ov : Nat)
    (hm : 0 < m) :
    ∀ fuel start, tokens.length ≤ start + fuel * m →
      chunkTokenWindowsAux tokens m ov fuel start =
        (List.range ((tokens.length - start + m - 1) / m)).map (fun k =>
          (tokens.drop (start + k * m)).take
            (m + if start + k * m + m < tokens.length then ov else 0)) := by
  intro fuel
  induction fuel with
  | zero =>
    intro start h
    have h0 : tokens.length - start = 0 := by
      simp only [Nat.zero_mul] at h
      omega
    rw [h0, Nat.div_eq_of_lt (by omega)]
    simp [chunkTokenWindowsAux]
  | succ fuel ih =>
    intro start h
    by_cases hs : start < tokens.length
    · have hfuel : tokens.length ≤ (start + m) + fuel * m := by
        have hsm : (fuel + 1) * m = fuel * m + m := Nat.succ_mul fuel m
        omega
      simp only [chunkTokenWindowsAux, if_pos hs]
      rw [ih (start + m) hfuel]
      have hN : (tokens.length - start + m - 1) / m
          = (tokens.length - (start + m) + m - 1) / m + 1 := by
        have hd1 : 1 ≤ tokens.length - start := by omega
        set d := tokens.length - start with hdd
        have h1 : tokens.length - (start + m) = d - m := by omega
        rw [h1]
        have h4 : d + m - 1 = (d - 1) + m := by omega
        rw [h4, Nat.add_div_right _ hm]
        by_cases hdm : d ≤ m
        · have h2 : d - m = 0 := by omega
          rw [h2, Nat.div_eq_of_lt (by omega : 0 + m - 1 < m),
            Nat.div_eq_of_lt (by omega : d - 1 < m)]
        · have h5 : d - m + m - 1 = (d - m - 1) + m := by omega
          rw [h5, Nat.add_div_right _ hm]
          have h6 : d - 1 = (d - m - 1) + m := by omega
          rw [h6, Nat.add_div_right _ hm]
      rw [hN, List.range_succ_eq_map, List.map_cons, List.map_map]
      congr 1
      · simp only [Nat.zero_mul, Nat.add_zero]
        split
        · congr 1
          omega
        · congr 1
          omega
      · apply List.map_congr_left
        intro k hk
        simp only [Function.comp]
        have he : start + Nat.succ k * m = start + m + k * m := by
          rw [Nat.succ_mul]
          omega
        rw [he]
    · simp only [chunkTokenWindowsAux, if_neg hs]
      have h0 : tokens.length - start = 0 := by omega
      rw [h0, Nat.div_eq_of_lt (by omega)]
      simp

/-- C2: for a nonempty token sequence and positive max_tokens, the
windows emitted by chunk_text_by_tokens start at offsets 0, max_tokens,
2*max_tokens, ...; each takes max_tokens tokens, extended by
overlap_tokens trailing tokens exactly when tokens remain beyond the
window, and the start offset advances by exactly max_tokens. -/
theorem chunk_text_by_tokens_window_layout {α : Type} (tokens : List α) (m ov : Nat)
    (hm : 0 < m) (_hne : tokens ≠ []) :
    chunkTokenWindows tokens m ov =
      (List.range ((tokens.length + m - 1) / m)).map (fun k =>
        (tokens.drop (k * m)).take (m + if k * m + m < tokens.length then ov else 0)) := by
  have hfuel : tokens.length ≤ 0 + (tokens.length + 1) * m := by
    have := Nat.le_mul_of_pos_right (tokens.length + 1) hm
    omega
  have h := chunkTokenWindowsAux_closed_form tokens m ov hm (tokens.length + 1) 0 hfuel
  rw [chunkTokenWindows, h]
  simp only [Nat.sub_zero, Nat.zero_add]

/-- Witness for C2: five tokens with max_tokens 2 and overlap 1 give
windows at offsets 0, 2, 4, the first two extended by the overlap. -/
theorem chunk_text_by_tokens_window_layout_witness :
    0 < 2 ∧ ([1, 2, 3, 4, 5] : List Nat) ≠ [] ∧
    chunkTokenWindows ([1, 2, 3, 4, 5] : List Nat) 2 1 =
      (List.range ((([1, 2, 3, 4, 5] : List Nat).length + 2 - 1) / 2)).map (fun k =>
        (([1, 2, 3, 4, 5] : List Nat).drop (k * 2)).take
          (2 + if k * 2 + 2 < ([1, 2, 3, 4, 5] : List Nat).length then 1 else 0)) :=
  ⟨by decide, by decide,
    chunk_text_by_tokens_window_layout [1, 2, 3, 4, 5] 2 1 (by decide) (by decide)⟩

/-- C8: retrieve_and_rank sets composite_score to similarity_score on
every returned element, returns the list sorted by composite_score in
descending order, and is stable: for every score value, the
subsequence of elements carrying that score equals, in order, the
corresponding subsequence of the input. -/
theorem retrieve_and_rank_spec (chunks : List RetrievedChunk) :
    (∀ c ∈ retrieve_and_rank chunks, c.composite_score = c.similarity_score) ∧
    (retrieve_and_rank chunks).Pairwise
      (fun a b => b.composite_score ≤ a.composite_score) ∧
    (∀ q : ℚ, (retrieve_and_rank chunks).filter (fun c => decide (c.composite_score = q)) =
      (chunks.filter (fun c => decide (c.similarity_score = q))).map
        (fun c => { c with composite_score := c.similarity_score })) := by
  have htrans : ∀ a b c : RetrievedChunk,
      decide (b.composite_score ≤ a.composite_score) = true →
      decide (c.composite_score ≤ b.composite_score) = true →
      decide (c.composite_score ≤ a.composite_score) = true := by
    intro a b c hab hbc
    exact decide_eq_true (le_trans (of_decide_eq_true hbc) (of_decide_eq_true hab))
  have htot : ∀ a b : RetrievedChunk,
      (decide (b.composite_score ≤ a.composite_score) ||
        decide (a.composite_score ≤ b.composite_score)) = true := by
    intro a b
    rcases le_total b.composite_score a.composite_score with h | h
    · rw [decide_eq_true h, Bool.true_or]
    · rw [decide_eq_true h, Bool.or_true]
  refine ⟨?_, ?_, ?_⟩
  · intro c hc
    rw [retrieve_and_rank] at hc
    have hc2 := (List.mergeSort_perm _ _).mem_iff.mp hc
    rcases List.mem_map.mp hc2 with ⟨o, _, rfl⟩
    rfl
  · have hp := List.sorted_mergeSort htrans htot
      (chunks.map (fun c => { c with composite_score := c.similarity_score }))
    exact hp.imp (fun h => of_decide_eq_true h)
  · intro q
    set p : RetrievedChunk → Bool := fun c => decide (c.composite_score = q) with hp
    set f : RetrievedChunk → RetrievedChunk :=
      fun c => { c with composite_score := c.similarity_score } with hf
    set scored := chunks.map f with hscored
    have hpair : (scored.filter p).Pairwise (fun a b =>
        decide (b.composite_score ≤ a.composite_score) = true) := by
      apply List.pairwise_of_forall_mem_list
      intro a ha b hb
      have ha2 : a.composite_score = q := of_decide_eq_true (List.mem_filter.mp ha).2
      have hb2 : b.composite_score = q := of_decide_eq_true (List.mem_filter.mp hb).2
      rw [ha2, hb2]
      exact decide_eq_true le_rfl
    have hsub : (scored.filter p).Sublist (scored.mergeSort
        (fun a b => decide (b.composite_score ≤ a.composite_score))) :=
      List.sublist_mergeSort htrans htot hpair (List.filter_sublist scored)
    have hsub2 := hsub.filter p
    have hself : (scored.filter p).filter p = scored.filter p := by
      rw [List.filter_filter]
      apply List.filter_congr
      intro x _
      rw [Bool.and_self]
    rw [hself] at hsub2
    have hlen : ((scored.mergeSort
        (fun a b => decide (b.composite_score ≤ a.composite_score))).filter p).length
        = (scored.filter p).length :=
      ((List.mergeSort_perm scored _).filter p).length_eq
    have heq := hsub2.eq_of_length hlen.symm
    rw [retrieve_and_rank, ← heq, hscored, List.filter_map]
    congr 1

/-- Whitespace collapsing never lengthens a character list. -/
theorem collapseWs_length_le (l : List Char) : ∀ b, (collapseWs b l).length ≤ l.length := by
  induction l with
  | nil =>
    intro b
    simp [collapseWs]
  | cons c rest ih =>
    intro b
    have h1 := ih true
    have h2 := ih false
    simp only [collapseWs]
    split
    · split
      · simp only [List.length_cons]
        omega
      · simp only [List.length_cons]
        omega
    · simp only [List.length_cons]
      omega

/-- Stripping never lengthens a character list. -/
theorem pyStripL_length_le (l : List Char) : (pyStripL l).length ≤ l.length := by
  have h1 : (l.dropWhile pyIsSpace).length ≤ l.length :=
    (List.dropWhile_sublist _).length_le
  have h2 : ((l.dropWhile pyIsSpace).reverse.dropWhile pyIsSpace).length ≤
      (l.dropWhile pyIsSpace).reverse.length :=
    (List.dropWhile_sublist _).length_le
  unfold pyStripL
  rw [List.length_reverse]
  rw [List.length_reverse] at h2
  omega

/-- clean_text never lengthens a string. -/
theorem cleanText_length_le (s : String) : (cleanText s).data.length ≤ s.data.length := by
  have h1 := pyStripL_length_le (collapseWs false s.data)
  have h2 := collapseWs_length_le s.data false
  show (pyStripL (collapseWs false s.data)).length ≤ s.data.length
  omega

/-- For the character tokenizer, clean_text does not increase the
token count. -/
theorem charEncode_cleanText_le (s : String) :
    (charEncode (cleanText s)).length ≤ (charEncode s).length := by
  simp only [charEncode, List.length_map]
  exact cleanText_length_le s

/-- For the character tokenizer, re-encoding a decoded window yields
no extra tokens. -/
theorem charEncode_charDecode_le (l : List Nat) :
    (charEncode (charDecode l)).length ≤ l.length := by
  simp [charEncode, charDecode]

/-- Every window the token loop emits has at most max_tokens plus
overlap_tokens tokens. -/
theorem chunkTokenWindowsAux_window_le {α : Type} (tokens : List α) (m ov : Nat) :
    ∀ fuel start w, w ∈ chunkTokenWindowsAux tokens m ov fuel start →
      w.length ≤ m + ov := by
  intro fuel
  induction fuel with
  | zero =>
    intro start w hw
    simp [chunkTokenWindowsAux] at hw
  | succ fuel ih =>
    intro start w hw
    simp only [chunkTokenWindowsAux] at hw
    split at hw
    · rcases List.mem_cons.mp hw with h | h
      · subst h
        rw [List.length_take]
        have hb : (if start + m < tokens.length then start + m + ov else start + m) - start
            ≤ m + ov := by
          split <;> omega
        omega
      · exact ih _ w h
    · simp at hw

/-- Every chunk emitted by token-mode chunking with zero overlap has
at most max_tokens tokens, for a tokenizer whose whitespace
normalisation and decode round-trip do not increase token counts. -/
theorem chunk_text_by_tokens_token_le (encode : String → List Nat)
    (decode : List Nat → String)
    (h_clean : ∀ s, (encode (cleanText s)).length ≤ (encode s).length)
    (h_rt : ∀ l, (encode (decode l)).length ≤ l.length)
    (text : String) (m : Nat) :
    ∀ c ∈ chunk_text_by_tokens encode decode text m 0, (encode c).length ≤ m := by
  intro c hc
  rw [chunk_text_by_tokens] at hc
  split at hc
  · simp at hc
  · rcases List.mem_filter.mp hc with ⟨hc1, _⟩
    rcases List.mem_map.mp hc1 with ⟨w, hw, rfl⟩
    rw [chunkTokenWindows] at hw
    have h1 := h_clean (decode w)
    have h2 := h_rt w
    have h3 := chunkTokenWindowsAux_window_le (encode text) m 0 _ _ w hw
    omega

/-- Loop invariant of the sentence accumulator: when the pending
current chunk fits in max_tokens, every emitted chunk fits in
max_tokens. -/
theorem sentencesLoop_token_le (encode : String → List Nat) (decode : List Nat → String)
    (m : Nat)
    (h_clean : ∀ s, (encode (cleanText s)).length ≤ (encode s).length)
    (h_rt : ∀ l, (encode (decode l)).length ≤ l.length) :
    ∀ (sentences : List String) (current : String),
      (current = "" ∨ (encode current).length ≤ m) →
      ∀ c ∈ sentencesLoop encode decode m sentences current, (encode c).length ≤ m := by
  intro sentences
  induction sentences with
  | nil =>
    intro current hinv c hc
    simp only [sentencesLoop] at hc
    split at hc
    · next hstrip =>
      simp only [List.mem_singleton] at hc
      subst hc
      rcases hinv with h0 | hlen
      · rw [h0] at hstrip
        exact absurd (by decide) hstrip
      · have := h_clean current
        omega
    · simp at hc
  | cons sentence rest ih =>
    intro current hinv c hc
    have hflush : ∀ x ∈ (if pyStrip current ≠ "" then [cleanText current] else []),
        (encode x).length ≤ m := by
      intro x hx
      split at hx
      · next hstrip =>
        simp only [List.mem_singleton] at hx
        subst hx
        rcases hinv with h0 | hlen
        · rw [h0] at hstrip
          exact absurd (by decide) hstrip
        · have := h_clean current
          omega
      · simp at hx
    simp only [sentencesLoop] at hc
    set tc : String := (if current ≠ "" then current ++ " " ++ sentence else sentence)
      with htc
    split at hc
    · next hfit =>
      exact ih _ (Or.inr hfit) c hc
    · split at hc
      · next hover =>
        rcases List.mem_append.mp hc with h1 | h2
        · rcases List.mem_append.mp h1 with h3 | h4
          · exact hflush c h3
          · exact chunk_text_by_tokens_token_le encode decode h_clean h_rt sentence m c h4
        · exact ih _ hinv c h2
      · next hnotover =>
        rcases List.mem_append.mp hc with h1 | h2
        · exact hflush c h1
        · exact ih _ (Or.inr (by omega)) c h2

/-- C9: sentence-mode chunking emits no chunk whose token count
exceeds max_tokens — the chunks produced by the token-windowing
fallback for a single over-length sentence use zero overlap and also
stay within max_tokens — for every tokenizer whose encode is not
increased by whitespace normalisation and whose decode round-trips
without extra tokens. -/
theorem chunk_text_by_sentences_token_le (encode : String → List Nat)
    (decode : List Nat → String)
    (h_clean : ∀ s, (encode (cleanText s)).length ≤ (encode s).length)
    (h_rt : ∀ l, (encode (decode l)).length ≤ l.length)
    (text : String) (m : Nat) (_hm : 0 < m) :
    ∀ c ∈ chunk_text_by_sentences encode decode text m, (encode c).length ≤ m := by
  intro c hc
  rw [chunk_text_by_sentences] at hc
  split at hc
  · simp at hc
  · exact sentencesLoop_token_le encode decode m h_clean h_rt
      (splitSentences text) "" (Or.inl rfl) c hc

/-- Witness for C9: the character tokenizer on a three-sentence text
with max_tokens 20, whose middle sentence alone exceeds the limit and
goes through the token-split fallback. -/
theorem chunk_text_by_sentences_token_le_witness :
    (0 : Nat) < 20 ∧
    ((chunk_text_by_sentences charEncode charDecode
        "Some words here. More stuff follows now. End" 20).all
      (fun c => decide ((charEncode c).length ≤ 20))) = true := by
  refine ⟨by decide, List.all_eq_true.mpr ?_⟩
  intro c hc
  exact decide_eq_true (chunk_text_by_sentences_token_le charEncode charDecode
    charEncode_cleanText_le charEncode_charDecode_le
    "Some words here. More stuff follows now. End" 20 (by decide) c hc)

end RAG
